import Mathlib

/-!
Verification development for the Bithub client layer (`bithub_comms.py`,
`bithub_cores.py`): a shallow embedding of the request executor with its
retry/backoff policy, the audience-format guard, the reply-polling
protocol, and the cores workflow wrappers, together with theorems checking
the natural-language specification against that embedding.
-/

/-- Error taxonomy of `bithub_errors.py`: a base kind `bithubError`
(`BithubError`) with the three specializations `BithubAuthError`,
`BithubNetworkError` and `BithubRateLimitError`; every value carries a
human-readable message. -/
inductive BithubErr where
  | authError (msg : String)
  | rateLimitError (msg : String)
  | networkError (msg : String)
  | bithubError (msg : String)
deriving DecidableEq

/-- Outcome of one physical HTTP attempt, as observed by `_request`:
either a response (status code, parsed optional `Retry-After` header,
parsed JSON body of type `α`, raw response text) or a transport-level
exception (`requests.exceptions.RequestException`) carrying its text. -/
inductive Outcome (α : Type) where
  | resp (status : Nat) (retryAfter : Option Nat) (body : α) (text : String)
  | exn (msg : String)
deriving DecidableEq

instance {ε α : Type} [DecidableEq ε] [DecidableEq α] : DecidableEq (Except ε α)
  | .ok a, .ok b => decidable_of_iff (a = b) (by simp)
  | .ok _, .error _ => isFalse (fun h => Except.noConfusion h)
  | .error _, .ok _ => isFalse (fun h => Except.noConfusion h)
  | .error e, .error f => decidable_of_iff (e = f) (by simp)

/-- Result of a full `_request` call: the returned body or raised error,
the list of back-off sleep durations in order, and the number of physical
attempts that were made. -/
structure ReqResult (α : Type) where
  result : Except BithubErr α
  sleeps : List Nat
  attempts : Nat
deriving DecidableEq

/-- One-for-one embedding of the retry loop of `BithubComms._request`
(bithub_comms.py lines 116-156).  `env i` is the outcome the network
produces for physical attempt `i`; `total` is the `retries` argument the
messages interpolate; `a` is the current attempt index, `backoff` the
current back-off, and `fuel` the number of loop iterations left
(`fuel = retries - a` at every call, so `fuel = 0` plays the part of the
loop's normal exit into the fail-safe raise). -/
def requestGo (env : Nat → Outcome α) (total a backoff fuel : Nat) : ReqResult α :=
  match fuel with
  | 0 => ⟨.error (.networkError "Max retries exceeded"), [], 0⟩
  | fuel' + 1 =>
    match env a with
    | .resp status ra body text =>
      if status < 400 then ⟨.ok body, [], 1⟩
      else if status = 401 ∨ status = 403 then
        ⟨.error (.authError ("HTTP " ++ toString status ++ ": " ++ text)), [], 1⟩
      else if status = 429 then
        if fuel' = 0 then
          ⟨.error (.rateLimitError ("Rate limit exceeded after " ++ toString total ++ " retries")), [], 1⟩
        else
          let r := requestGo env total (a + 1) (backoff * 2) fuel'
          ⟨r.result, ra.getD backoff :: r.sleeps, r.attempts + 1⟩
      else if 500 ≤ status then
        let r := requestGo env total (a + 1) (backoff * 2) fuel'
        ⟨r.result, backoff :: r.sleeps, r.attempts + 1⟩
      else ⟨.error (.bithubError ("HTTP " ++ toString status ++ ": " ++ text)), [], 1⟩
    | .exn msg =>
      if fuel' = 0 then
        ⟨.error (.networkError ("Network error after " ++ toString total ++ " retries: " ++ msg)), [], 1⟩
      else
        let r := requestGo env total (a + 1) (backoff * 2) fuel'
        ⟨r.result, backoff :: r.sleeps, r.attempts + 1⟩

/-- `BithubComms._request` with retry budget `retries`: the loop starts at
attempt 0 with `backoff = 1`. -/
def bithubRequest (env : Nat → Outcome α) (retries : Nat) : ReqResult α :=
  requestGo env retries 0 1 retries

/-- An attempt outcome that `_request` treats as retryable via an HTTP
status: 429 or any status at or above 500. -/
def isHttpRetryable : Outcome α → Prop
  | .resp st _ _ _ => st = 429 ∨ 500 ≤ st
  | .exn _ => False

/-- An attempt outcome that is an HTTP response with a 5xx-or-above status. -/
def is5xxOutcome : Outcome α → Prop
  | .resp st _ _ _ => 500 ≤ st
  | .exn _ => False

/-- An attempt outcome that is a transport exception or a 5xx response. -/
def isTransportOr5xx : Outcome α → Prop
  | .resp st _ _ _ => 500 ≤ st
  | .exn _ => True

/-- An attempt outcome that is an HTTP 429 response. -/
def is429Outcome : Outcome α → Prop
  | .resp st _ _ _ => st = 429
  | .exn _ => False

/-- The parsed `Retry-After` header of an attempt outcome, when present. -/
def retryAfterOf : Outcome α → Option Nat
  | .resp _ ra _ _ => ra
  | .exn _ => none

instance [DecidableEq α] : (o : Outcome α) → Decidable (isHttpRetryable o)
  | .resp st _ _ _ => inferInstanceAs (Decidable (st = 429 ∨ 500 ≤ st))
  | .exn _ => inferInstanceAs (Decidable False)

instance [DecidableEq α] : (o : Outcome α) → Decidable (is5xxOutcome o)
  | .resp st _ _ _ => inferInstanceAs (Decidable (500 ≤ st))
  | .exn _ => inferInstanceAs (Decidable False)

instance [DecidableEq α] : (o : Outcome α) → Decidable (isTransportOr5xx o)
  | .resp st _ _ _ => inferInstanceAs (Decidable (500 ≤ st))
  | .exn _ => inferInstanceAs (Decidable True)

instance [DecidableEq α] : (o : Outcome α) → Decidable (is429Outcome o)
  | .resp st _ _ _ => inferInstanceAs (Decidable (st = 429))
  | .exn _ => inferInstanceAs (Decidable False)

/-- A forum post as used by `wait_for_reply`: its rendered (`cooked`) and
source (`raw`) content, a missing field modelled as the empty string
(Python falsiness of `post.get(...)`). -/
structure ForumPost where
  cooked : String
  raw : String
deriving DecidableEq

/-- Result of a `wait_for_reply` call: the reply that was found (if any)
and the total wall-clock time spent sleeping, in seconds. -/
structure WaitResult where
  reply : Option ForumPost
  elapsed : Nat
deriving DecidableEq

/-- One-for-one embedding of the polling loop of
`BithubComms.wait_for_reply` (bithub_comms.py lines 374-389).
`streams p` is the topic's post-id stream as fetched on poll number `p`;
`posts i` is the post fetched by `get_post i`.  Time advances only through
the loop's sleeps, so `e` is the elapsed wall-clock time checked by the
`while` guard.  `fuel` bounds the iteration count; every theorem below
supplies enough fuel (`timeout` iterations suffice once
`1 ≤ pollInterval`) for the bound never to bind. -/
def waitGo (streams : Nat → List Nat) (posts : Nat → ForumPost)
    (lastPostId timeout pollInterval : Nat) (fuel p e : Nat) : WaitResult :=
  match fuel with
  | 0 => ⟨none, e⟩
  | fuel' + 1 =>
    if e < timeout then
      match (streams p).getLast? with
      | some lastId =>
        if lastPostId < lastId then
          let post := posts lastId
          if post.cooked ≠ "" ∨ post.raw ≠ "" then ⟨some post, e⟩
          else waitGo streams posts lastPostId timeout pollInterval fuel' (p + 1) (e + 2)
        else waitGo streams posts lastPostId timeout pollInterval fuel' (p + 1) (e + pollInterval)
      | none => waitGo streams posts lastPostId timeout pollInterval fuel' (p + 1) (e + pollInterval)
    else ⟨none, e⟩

/-- `BithubComms.wait_for_reply`: poll from time 0 with poll counter 0. -/
def waitForReply (streams : Nat → List Nat) (posts : Nat → ForumPost)
    (lastPostId timeout pollInterval : Nat) : WaitResult :=
  waitGo streams posts lastPostId timeout pollInterval timeout 0 0

/-- A fetched stream that does not trigger the new-reply branch of
`wait_for_reply`: it is empty, or its last entry is at most `lastPostId`. -/
def noNewReply (lastPostId : Nat) (stream : List Nat) : Prop :=
  match stream.getLast? with
  | some i => i ≤ lastPostId
  | none => True

instance (lastPostId : Nat) (stream : List Nat) : Decidable (noNewReply lastPostId stream) :=
  decidable_of_iff (∀ i ∈ stream.getLast?, i ≤ lastPostId)
    (by unfold noNewReply; cases stream.getLast? <;> simp)

/-- Whitespace characters matched by the regex class used in
`_enforce_audience_format`'s fenced-block pattern. -/
def isWsChar (c : Char) : Bool :=
  c = ' ' || c = '\t' || c = '\n' || c = '\r' || c = '\x0b' || c = '\x0c'

/-- Drop the longest run of leading whitespace (the greedy match of a
whitespace-star regex piece followed by a non-whitespace literal). -/
def dropWsL : List Char → List Char
  | [] => []
  | c :: cs => if isWsChar c then dropWsL cs else c :: cs

/-- When `lit` is a prefix of `s`, the remainder of `s` after it. -/
def afterLit : List Char → List Char → Option (List Char)
  | [], s => some s
  | _ :: _, [] => none
  | l :: ls, c :: cs => if l = c then afterLit ls cs else none

/-- The opening fence literal of the regex in `_enforce_audience_format`. -/
def fenceOpen : List Char := "```json".data

/-- The closing fence literal of the regex in `_enforce_audience_format`. -/
def fenceClose : List Char := "```".data

/-- Lazy search for the closing brace of the capture group: the shortest
body after the opening brace whose next character is a closing brace
followed by optional whitespace and a closing fence (the non-greedy
quantifier of the pattern, with dot matching newlines).  Returns the
group body without its enclosing braces. -/
def lazyClose (acc : List Char) : List Char → Option (List Char)
  | [] => none
  | c :: cs =>
    if c = '\x7d' ∧ (afterLit fenceClose (dropWsL cs)).isSome then some acc.reverse
    else lazyClose (c :: acc) cs

/-- Attempt to match the whole fenced-JSON pattern at the start of `s`,
returning the capture group (braces included). -/
def matchFenceAt (s : List Char) : Option (List Char) :=
  match afterLit fenceOpen s with
  | none => none
  | some t1 =>
    match dropWsL t1 with
    | [] => none
    | c :: cs =>
      if c = '\x7b' then (lazyClose [] cs).map (fun inner => '\x7b' :: (inner ++ ['\x7d']))
      else none

/-- Leftmost search of the fenced-JSON pattern, as `re.search` performs it:
try each start position from the left and keep the first full match. -/
def searchFence : List Char → Option (List Char)
  | [] => none
  | c :: cs =>
    match matchFenceAt (c :: cs) with
    | some g => some g
    | none => searchFence cs

/-- The fenced-code-block extraction of `_enforce_audience_format`:
`re.search` of the pattern over `s`, returning capture group 1. -/
def extractJsonBlock (s : String) : Option String :=
  (searchFence s.data).map (fun l => ⟨l⟩)

/-- One-for-one embedding of `BithubComms._enforce_audience_format`
(bithub_comms.py lines 158-194).  `jsonOk` stands for the external
`json.loads` succeeding on a string; the executor never inspects the
parsed value, only whether parsing succeeds. -/
def enforceAudienceFormat (jsonOk : String → Bool) (content audience : String) :
    Except BithubErr String :=
  if audience = "human" then .ok content
  else if audience = "ai" then
    if jsonOk content then .ok content
    else
      match extractJsonBlock content with
      | some g =>
        if jsonOk g then .ok g
        else .error (.bithubError "Content validation failed: AI audience requires valid JSON.")
      | none => .error (.bithubError "Content validation failed: AI audience requires valid JSON.")
  else .ok content

/-- Whether `pat` occurs as a contiguous subsequence of the second list. -/
def containsSeq (pat : List Char) : List Char → Bool
  | [] => pat.isEmpty
  | c :: cs => (afterLit pat (c :: cs)).isSome || containsSeq pat cs

/-- The double-section-sign placeholder marker. -/
def sectionMarker : List Char := "§§".data

/-- The opening of the double-curly-brace interpolation syntax. -/
def curlyOpen : List Char := "\x7b\x7b".data

/-- The closing of the double-curly-brace interpolation syntax. -/
def curlyClose : List Char := "\x7d\x7d".data

/-- Whether the text holds a double-curly-brace interpolation: an opening
double brace with a closing double brace somewhere after it. -/
def hasCurlyInterp : List Char → Bool
  | [] => false
  | c :: cs =>
    match afterLit curlyOpen (c :: cs) with
    | some rest => containsSeq curlyClose rest
    | none => hasCurlyInterp cs

/-- Modelled from the spec: the unresolved-template-placeholder test of the
pre-send Content Guard (`_validate_content`, referenced by
tests/test_guards.py but absent from the sources under src) — a body is
flagged when it holds the double-section-sign marker or double-curly-brace
interpolation syntax. -/
def hasUnresolvedPlaceholder (s : String) : Bool :=
  containsSeq sectionMarker s.data || hasCurlyInterp s.data

/-- Modelled from the spec: the configured maximum content length of the
pre-send Content Guard (tests/test_guards.py rejects 32001 characters and
the spec accepts a string of exactly the maximum length). -/
def maxContentLength : Nat := 32000

/-- Modelled from the spec: the length and placeholder checks of the
pre-send Content Guard (`_validate_content`); both violations raise the
base error kind. -/
def validateContent (content : String) : Except BithubErr Unit :=
  if maxContentLength < content.length then .error (.bithubError "Content too long")
  else if hasUnresolvedPlaceholder content then .error (.bithubError "Unresolved placeholders")
  else .ok ()

/-- A write operation's observable outcome: the value returned or error
raised, and whether the underlying request was dispatched at all. -/
structure WriteAttempt (α : Type) where
  result : Except BithubErr α
  dispatched : Bool
deriving DecidableEq

/-- Modelled from the spec: every write operation (create topic, send
private message, reply) runs the Content Guard over the outgoing body
before the request is dispatched; a guard violation raises and the request
is never issued.  `dispatch` abstracts the underlying `_request` call. -/
def guardedWrite (dispatch : String → α) (content : String) : WriteAttempt α :=
  match validateContent content with
  | .error e => ⟨.error e, false⟩
  | .ok _ => ⟨.ok (dispatch content), true⟩

/-- A character that may continue an `@username`-style mention token. -/
def isNameChar (c : Char) : Bool := c.isAlphanum || c = '_'

/-- Whether the text holds an `@username`-style mention token: an `@` sign
directly followed by a username character. -/
def hasMentionTag : List Char → Bool
  | [] => false
  | '@' :: d :: rest => isNameChar d || hasMentionTag (d :: rest)
  | _ :: rest => hasMentionTag rest

/-- Modelled from the spec: the category-id threshold at and above which
mention tags are forbidden (the "core" categories; tests/test_guards.py
uses 55 against the documented threshold 54). -/
def coreCategoryThreshold : Nat := 54

/-- Modelled from the spec: the minimum number of posts a topic needs
before mention tags are allowed. -/
def minPostsForMention : Nat := 5

/-- Modelled from the spec: the mention-tag guard
(`_validate_genesis_purity` and the post-completion rule of the reply path,
referenced by tests/test_guards.py but absent from the sources under src).
A body holding a mention token is rejected when the destination category id
is at or above the core threshold, and rejected when the destination topic
holds fewer than the minimum number of posts. -/
def mentionGuard (content : String) (categoryId postCount : Nat) : Except BithubErr Unit :=
  if hasMentionTag content.data then
    if coreCategoryThreshold ≤ categoryId then
      .error (.bithubError "Genesis Purity Violation")
    else if postCount < minPostsForMention then
      .error (.bithubError "Post-Completion Rule")
    else .ok ()
  else .ok ()

/-- Outcome of the deploy-and-watch workflow: the deployment descriptor
(asynchronous call), the harvested reply (successful synchronous wait), or
the no-reply signal (synchronous wait that timed out). -/
inductive DeployOutcome (α β : Type) where
  | deployed (info : α)
  | reply (post : β)
  | noReply
deriving DecidableEq

/-- A deploy-and-watch run together with whether the created topic was
deleted (burned) at the end. -/
structure DeployRun (α β : Type) where
  outcome : DeployOutcome α β
  burned : Bool
deriving DecidableEq

/-- Modelled from the spec: the deploy-and-watch-with-optional-burn variant
of `deploy_core` (exercised by tests/test_cores.py but absent from
bithub_cores.py under src).  `info` is the deployment descriptor,
`watchResult` the outcome the synchronous wait would harvest, and `sync`,
`burn` the caller flags; the created topic is deleted only after a
successful synchronous wait that was requested with the burn flag. -/
def deployCoreBurn (info : α) (watchResult : Option β) (sync burn : Bool) : DeployRun α β :=
  if sync then
    match watchResult with
    | some p => ⟨.reply p, burn⟩
    | none => ⟨.noReply, false⟩
  else ⟨.deployed info, false⟩

/-- The public and private methods class `BithubComms` defines
(bithub_comms.py), by Python name. -/
def bithubCommsMethods : List String :=
  ["_request", "_enforce_audience_format", "create_topic", "send_private_message",
   "reply_to_post", "get_topic_posts", "update_post", "get_post", "get_notifications",
   "wait_for_reply", "delete_post", "delete_topic", "delete_user", "get_chat_channels",
   "get_chat_messages", "create_dm_channel", "send_chat_message", "sanitize_html"]

/-- The methods resolvable on a `BithubCores` instance: its own definitions
(bithub_cores.py) plus everything inherited from `BithubComms`. -/
def bithubCoresMethods : List String :=
  ["_validate_category", "deploy_core", "watch_topic"] ++ bithubCommsMethods

/-- Outcome of a `BithubCores.watch_topic` call: an attribute-resolution
error (Python `AttributeError` naming the missing attribute), a found
reply, or the no-reply sentinel. -/
inductive WatchOutcome (β : Type) where
  | attrError (name : String)
  | found (p : β)
  | noReply
deriving DecidableEq

/-- One-for-one embedding of the polling loop of `BithubCores.watch_topic`
(bithub_cores.py lines 36-48).  Each iteration first resolves the
`get_topic` attribute on the instance; when resolution fails the iteration
raises `AttributeError`.  The timeout is an integer that may be
non-positive, and the elapsed clock `e` advances only through the loop's
five-second sleeps. -/
def watchTopicGo (hasGetTopic : Bool) (streams : Nat → List Nat) (posts : Nat → β)
    (lastPostId : Nat) (timeout : Int) (fuel p : Nat) (e : Int) : WatchOutcome β :=
  match fuel with
  | 0 => .noReply
  | fuel' + 1 =>
    if e < timeout then
      if hasGetTopic then
        match (streams p).getLast? with
        | some lastId =>
          if lastPostId < lastId then .found (posts lastId)
          else watchTopicGo hasGetTopic streams posts lastPostId timeout fuel' (p + 1) (e + 5)
        | none => watchTopicGo hasGetTopic streams posts lastPostId timeout fuel' (p + 1) (e + 5)
      else .attrError "get_topic"
    else .noReply

/-- `BithubCores.watch_topic`: the loop starts at elapsed time 0 and
resolves `get_topic` against the methods `BithubCores` actually has. -/
def watchTopic (streams : Nat → List Nat) (posts : Nat → β)
    (lastPostId : Nat) (timeout : Int) : WatchOutcome β :=
  watchTopicGo (bithubCoresMethods.contains "get_topic") streams posts lastPostId timeout
    timeout.toNat 0 0

theorem requestGo_succ_def (env : Nat → Outcome α) (total a backoff f : Nat) :
    requestGo env total a backoff (f + 1) =
      match env a with
      | .resp status ra body text =>
        if status < 400 then ⟨.ok body, [], 1⟩
        else if status = 401 ∨ status = 403 then
          ⟨.error (.authError ("HTTP " ++ toString status ++ ": " ++ text)), [], 1⟩
        else if status = 429 then
          if f = 0 then
            ⟨.error (.rateLimitError ("Rate limit exceeded after " ++ toString total ++ " retries")), [], 1⟩
          else
            ⟨(requestGo env total (a + 1) (backoff * 2) f).result,
             ra.getD backoff :: (requestGo env total (a + 1) (backoff * 2) f).sleeps,
             (requestGo env total (a + 1) (backoff * 2) f).attempts + 1⟩
        else if 500 ≤ status then
          ⟨(requestGo env total (a + 1) (backoff * 2) f).result,
           backoff :: (requestGo env total (a + 1) (backoff * 2) f).sleeps,
           (requestGo env total (a + 1) (backoff * 2) f).attempts + 1⟩
        else ⟨.error (.bithubError ("HTTP " ++ toString status ++ ": " ++ text)), [], 1⟩
      | .exn msg =>
        if f = 0 then
          ⟨.error (.networkError ("Network error after " ++ toString total ++ " retries: " ++ msg)), [], 1⟩
        else
          ⟨(requestGo env total (a + 1) (backoff * 2) f).result,
           backoff :: (requestGo env total (a + 1) (backoff * 2) f).sleeps,
           (requestGo env total (a + 1) (backoff * 2) f).attempts + 1⟩ := rfl

theorem range_map_pow_shift (β f : Nat) :
    (List.range (f + 1)).map (fun j => β * 2 ^ j)
      = β :: (List.range f).map (fun j => β * 2 * 2 ^ j) := by
  rw [List.range_succ_eq_map, List.map_cons, List.map_map]
  congr 1
  · simp
  · congr 1
    funext j
    simp only [Function.comp_apply, pow_succ]
    ring

theorem requestGo_success_spec (env : Nat → Outcome α) (total : Nat)
    (st : Nat) (ra : Option Nat) (b : α) (tx : String)
    (h2a : 200 ≤ st) (h2b : st < 300) :
    ∀ f a β, (∀ j, j < f → isHttpRetryable (env (a + j))) →
      env (a + f) = .resp st ra b tx →
      (requestGo env total a β (f + 1)).result = .ok b
      ∧ (requestGo env total a β (f + 1)).attempts = f + 1
      ∧ ((∀ j, j < f → is5xxOutcome (env (a + j))) →
          (requestGo env total a β (f + 1)).sleeps = (List.range f).map (fun j => β * 2 ^ j)) := by
  intro f
  induction f with
  | zero =>
    intro a β _ hsucc
    rw [Nat.add_zero] at hsucc
    rw [requestGo_succ_def, hsucc]
    dsimp only
    rw [if_pos (by omega)]
    exact ⟨rfl, rfl, fun _ => by simp⟩
  | succ f ih =>
    intro a β hretry hsucc
    have hr0 : isHttpRetryable (env (a + 0)) := hretry 0 (Nat.succ_pos f)
    rw [Nat.add_zero] at hr0
    have hretry' : ∀ j, j < f → isHttpRetryable (env (a + 1 + j)) := by
      intro j hj
      have h := hretry (j + 1) (by omega)
      rwa [show a + (j + 1) = a + 1 + j by omega] at h
    have hsucc' : env (a + 1 + f) = .resp st ra b tx := by
      rwa [show a + 1 + f = a + (f + 1) by omega]
    have IH := ih (a + 1) (β * 2) hretry' hsucc'
    cases henv : env a with
    | exn m =>
      rw [henv] at hr0
      exact absurd hr0 (by simp [isHttpRetryable])
    | resp st' ra' b' tx' =>
      rw [henv] at hr0
      have hst' : st' = 429 ∨ 500 ≤ st' := hr0
      rw [requestGo_succ_def, henv]
      dsimp only
      rcases hst' with h429 | h5xx
      · subst h429
        rw [if_neg (by omega), if_neg (by omega), if_pos rfl, if_neg (Nat.succ_ne_zero f)]
        refine ⟨IH.1, by rw [IH.2.1], ?_⟩
        intro h5
        exfalso
        have h50 := h5 0 (Nat.succ_pos f)
        rw [Nat.add_zero, henv] at h50
        have : (500 : Nat) ≤ 429 := h50
        omega
      · rw [if_neg (by omega), if_neg (by omega), if_neg (by omega), if_pos h5xx]
        refine ⟨IH.1, by rw [IH.2.1], ?_⟩
        intro h5
        have h5' : ∀ j, j < f → is5xxOutcome (env (a + 1 + j)) := by
          intro j hj
          have h := h5 (j + 1) (by omega)
          rwa [show a + (j + 1) = a + 1 + j by omega] at h
        rw [IH.2.2 h5', range_map_pow_shift]

theorem requestGo_all429_spec (env : Nat → Outcome α) (total : Nat) :
    ∀ f a β, (∀ j, j ≤ f → is429Outcome (env (a + j))) →
      (requestGo env total a β (f + 1)).result
          = .error (.rateLimitError ("Rate limit exceeded after " ++ toString total ++ " retries"))
      ∧ (requestGo env total a β (f + 1)).attempts = f + 1
      ∧ (requestGo env total a β (f + 1)).sleeps
          = (List.range f).map (fun j => (retryAfterOf (env (a + j))).getD (β * 2 ^ j)) := by
  intro f
  induction f with
  | zero =>
    intro a β h429
    have h0 := h429 0 (Nat.le_refl 0)
    rw [Nat.add_zero] at h0
    cases henv : env a with
    | exn m => rw [henv] at h0; exact absurd h0 (by simp [is429Outcome])
    | resp st' ra' b' tx' =>
      rw [henv] at h0
      have hst : st' = 429 := h0
      subst hst
      rw [requestGo_succ_def, henv]
      dsimp only
      rw [if_neg (by omega), if_neg (by omega), if_pos rfl, if_pos rfl]
      exact ⟨rfl, rfl, by simp⟩
  | succ f ih =>
    intro a β h429
    have h0 := h429 0 (Nat.zero_le _)
    rw [Nat.add_zero] at h0
    have h429' : ∀ j, j ≤ f → is429Outcome (env (a + 1 + j)) := by
      intro j hj
      have h := h429 (j + 1) (by omega)
      rwa [show a + (j + 1) = a + 1 + j by omega] at h
    have IH := ih (a + 1) (β * 2) h429'
    cases henv : env a with
    | exn m => rw [henv] at h0; exact absurd h0 (by simp [is429Outcome])
    | resp st' ra' b' tx' =>
      rw [henv] at h0
      have hst : st' = 429 := h0
      subst hst
      rw [requestGo_succ_def, henv]
      dsimp only
      rw [if_neg (by omega), if_neg (by omega), if_pos rfl, if_neg (Nat.succ_ne_zero f)]
      refine ⟨IH.1, by rw [IH.2.1], ?_⟩
      rw [IH.2.2]
      dsimp only
      rw [List.range_succ_eq_map, List.map_cons, List.map_map]
      congr 1
      · rw [Nat.add_zero, henv]
        simp [retryAfterOf]
      · congr 1
        funext j
        simp only [Function.comp_apply]
        rw [show a + (j + 1) = a + 1 + j by omega, pow_succ]
        congr 1
        ring

theorem requestGo_exhaust_spec (env : Nat → Outcome α) (total : Nat) :
    ∀ fuel a β, (∀ j, j < fuel → isTransportOr5xx (env (a + j))) →
      ∃ m, (requestGo env total a β fuel).result = .error (.networkError m) := by
  intro fuel
  induction fuel with
  | zero =>
    intro a β _
    exact ⟨"Max retries exceeded", rfl⟩
  | succ f ih =>
    intro a β hfail
    have h0 := hfail 0 (Nat.succ_pos f)
    rw [Nat.add_zero] at h0
    have hfail' : ∀ j, j < f → isTransportOr5xx (env (a + 1 + j)) := by
      intro j hj
      have h := hfail (j + 1) (by omega)
      rwa [show a + (j + 1) = a + 1 + j by omega] at h
    have IH := ih (a + 1) (β * 2) hfail'
    cases henv : env a with
    | exn m =>
      rw [requestGo_succ_def, henv]
      dsimp only
      by_cases hf : f = 0
      · subst hf
        rw [if_pos rfl]
        exact ⟨_, rfl⟩
      · rw [if_neg hf]
        exact IH
    | resp st' ra' b' tx' =>
      rw [henv] at h0
      have h5 : (500 : Nat) ≤ st' := h0
      rw [requestGo_succ_def, henv]
      dsimp only
      rw [if_neg (by omega), if_neg (by omega), if_neg (by omega), if_pos h5]
      exact IH

theorem requestGo_finalTransport_spec (env : Nat → Outcome α) (total : Nat) (msg : String) :
    ∀ f a β, (∀ j, j < f → isTransportOr5xx (env (a + j))) →
      env (a + f) = .exn msg →
      (requestGo env total a β (f + 1)).result
        = .error (.networkError ("Network error after " ++ toString total ++ " retries: " ++ msg)) := by
  intro f
  induction f with
  | zero =>
    intro a β _ hlast
    rw [Nat.add_zero] at hlast
    rw [requestGo_succ_def, hlast]
    dsimp only
    rw [if_pos rfl]
  | succ f ih =>
    intro a β hfail hlast
    have h0 := hfail 0 (Nat.succ_pos f)
    rw [Nat.add_zero] at h0
    have hfail' : ∀ j, j < f → isTransportOr5xx (env (a + 1 + j)) := by
      intro j hj
      have h := hfail (j + 1) (by omega)
      rwa [show a + (j + 1) = a + 1 + j by omega] at h
    have hlast' : env (a + 1 + f) = .exn msg := by
      rwa [show a + 1 + f = a + (f + 1) by omega]
    have IH := ih (a + 1) (β * 2) hfail' hlast'
    cases henv : env a with
    | exn m =>
      rw [requestGo_succ_def, henv]
      dsimp only
      rw [if_neg (Nat.succ_ne_zero f)]
      exact IH
    | resp st' ra' b' tx' =>
      rw [henv] at h0
      have h5 : (500 : Nat) ≤ st' := h0
      rw [requestGo_succ_def, henv]
      dsimp only
      rw [if_neg (by omega), if_neg (by omega), if_neg (by omega), if_pos h5]
      exact IH

theorem requestGo_all5xx_spec (env : Nat → Outcome α) (total : Nat) :
    ∀ fuel a β, (∀ j, j < fuel → is5xxOutcome (env (a + j))) →
      (requestGo env total a β fuel).result = .error (.networkError "Max retries exceeded")
      ∧ (requestGo env total a β fuel).attempts = fuel
      ∧ (requestGo env total a β fuel).sleeps = (List.range fuel).map (fun j => β * 2 ^ j) := by
  intro fuel
  induction fuel with
  | zero =>
    intro a β _
    exact ⟨rfl, rfl, by simp [requestGo]⟩
  | succ f ih =>
    intro a β hfail
    have h0 := hfail 0 (Nat.succ_pos f)
    rw [Nat.add_zero] at h0
    have hfail' : ∀ j, j < f → is5xxOutcome (env (a + 1 + j)) := by
      intro j hj
      have h := hfail (j + 1) (by omega)
      rwa [show a + (j + 1) = a + 1 + j by omega] at h
    have IH := ih (a + 1) (β * 2) hfail'
    cases henv : env a with
    | exn m => rw [henv] at h0; exact absurd h0 (by simp [is5xxOutcome])
    | resp st' ra' b' tx' =>
      rw [henv] at h0
      have h5 : (500 : Nat) ≤ st' := h0
      rw [requestGo_succ_def, henv]
      dsimp only
      rw [if_neg (by omega), if_neg (by omega), if_neg (by omega), if_pos h5]
      exact ⟨IH.1, by rw [IH.2.1], by rw [IH.2.2, range_map_pow_shift]⟩

/-- C1, counterexample: `_request` does not sleep
`max(Retry-After, backoff)` on a non-final 429.  With budget 3, a 500 on
attempt 0 (sleep 1, backoff becomes 2), a 429 with `Retry-After: 1` on
attempt 1, and a 2xx on attempt 2, the code sleeps the header value 1
where the claim demands `max (Retry-After) backoff = max 1 2 = 2`. -/
theorem claim_c1_counterexample :
    (bithubRequest (fun n =>
        if n = 0 then Outcome.resp 500 none (0 : Nat) "server error"
        else if n = 1 then Outcome.resp 429 (some 1) 0 "rate limited"
        else Outcome.resp 200 none 7 "ok") 3).sleeps = [1, 1]
    ∧ (bithubRequest (fun n =>
        if n = 0 then Outcome.resp 500 none (0 : Nat) "server error"
        else if n = 1 then Outcome.resp 429 (some 1) 0 "rate limited"
        else Outcome.resp 200 none 7 "ok") 3).sleeps ≠ [1, Nat.max 1 2] := by
  decide

/-- C1 (amended): with retry budget `N ≥ 1`, a 429 on the final allowed
attempt raises `BithubRateLimitError`; a 429 on a non-final attempt sleeps
the `Retry-After` header value when the header is present, otherwise the
current backoff (1, 2, 4, … doubling after every retried attempt), then
retries. -/
theorem claim_c1_rate_limit (env : Nat → Outcome α) (N : Nat) (hN : 1 ≤ N)
    (h429 : ∀ j, j < N → is429Outcome (env j)) :
    (bithubRequest env N).result
        = .error (.rateLimitError ("Rate limit exceeded after " ++ toString N ++ " retries"))
    ∧ (bithubRequest env N).attempts = N
    ∧ (bithubRequest env N).sleeps
        = (List.range (N - 1)).map (fun j => (retryAfterOf (env j)).getD (2 ^ j)) := by
  obtain ⟨f, rfl⟩ : ∃ f, N = f + 1 := ⟨N - 1, by omega⟩
  simp only [Nat.add_sub_cancel]
  unfold bithubRequest
  have h := requestGo_all429_spec env (f + 1) f 0 1
    (fun j hj => by simpa using h429 j (by omega))
  refine ⟨h.1, h.2.1, ?_⟩
  rw [h.2.2]
  simp

/-- C1 witness for the amended claim: every attempt is a 429 with
`Retry-After: 3`; with budget 2 the sleeps are `[3]` and the rate-limit
error is raised. -/
theorem claim_c1_rate_limit_witness :
    (bithubRequest (fun _ => Outcome.resp 429 (some 3) (0 : Nat) "limit") 2).result
        = .error (.rateLimitError ("Rate limit exceeded after " ++ toString 2 ++ " retries"))
    ∧ (bithubRequest (fun _ => Outcome.resp 429 (some 3) (0 : Nat) "limit") 2).attempts = 2
    ∧ (bithubRequest (fun _ => Outcome.resp 429 (some 3) (0 : Nat) "limit") 2).sleeps = [3] := by
  have h := claim_c1_rate_limit (fun _ => Outcome.resp 429 (some 3) (0 : Nat) "limit") 2
    (by decide) (by decide)
  exact ⟨h.1, h.2.1, by rw [h.2.2]; decide⟩

/-- C2: with retry budget `N ≥ 1`, a run of `N - 1` retryable failures
(429 or 5xx) followed by a 2xx returns the parsed body of the 2xx
response, makes exactly `N` attempts, and on the all-5xx path the sleeps
are the doubling sequence 1, 2, 4, …. -/
theorem claim_c2_request_success (env : Nat → Outcome α) (N st : Nat) (ra : Option Nat)
    (b : α) (tx : String) (hN : 1 ≤ N)
    (hretry : ∀ j, j < N - 1 → isHttpRetryable (env j))
    (hsucc : env (N - 1) = .resp st ra b tx)
    (h2a : 200 ≤ st) (h2b : st < 300) :
    (bithubRequest env N).result = .ok b
    ∧ (bithubRequest env N).attempts = N
    ∧ ((∀ j, j < N - 1 → is5xxOutcome (env j)) →
        (bithubRequest env N).sleeps = (List.range (N - 1)).map (fun j => 2 ^ j)) := by
  obtain ⟨f, rfl⟩ : ∃ f, N = f + 1 := ⟨N - 1, by omega⟩
  simp only [Nat.add_sub_cancel] at hretry hsucc ⊢
  unfold bithubRequest
  have h := requestGo_success_spec env (f + 1) st ra b tx h2a h2b f 0 1
    (fun j hj => by simpa using hretry j hj) (by simpa using hsucc)
  refine ⟨h.1, h.2.1, fun h5 => ?_⟩
  rw [h.2.2 (fun j hj => by simpa using h5 j hj)]
  simp

/-- C2 witness: budget 3, a 500 then a 502 then a 200 carrying body 42:
the call returns 42, makes 3 attempts, and sleeps 1 then 2 seconds. -/
theorem claim_c2_request_success_witness :
    (bithubRequest (fun n =>
        if n = 0 then Outcome.resp 500 none (0 : Nat) "err"
        else if n = 1 then Outcome.resp 502 none 0 "err"
        else Outcome.resp 200 none 42 "ok") 3).result = Except.ok 42
    ∧ (bithubRequest (fun n =>
        if n = 0 then Outcome.resp 500 none (0 : Nat) "err"
        else if n = 1 then Outcome.resp 502 none 0 "err"
        else Outcome.resp 200 none 42 "ok") 3).attempts = 3
    ∧ (bithubRequest (fun n =>
        if n = 0 then Outcome.resp 500 none (0 : Nat) "err"
        else if n = 1 then Outcome.resp 502 none 0 "err"
        else Outcome.resp 200 none 42 "ok") 3).sleeps = [1, 2] := by
  have h := claim_c2_request_success (fun n =>
      if n = 0 then Outcome.resp 500 none (0 : Nat) "err"
      else if n = 1 then Outcome.resp 502 none 0 "err"
      else Outcome.resp 200 none 42 "ok") 3 200 none 42 "ok"
    (by decide) (by decide) (by decide) (by decide) (by decide)
  exact ⟨h.1, h.2.1, by rw [h.2.2 (by decide)]; decide⟩

/-- C3: a 401 or 403 on the first attempt raises `BithubAuthError` at
once, whatever the retry budget: one attempt, no sleeps. -/
theorem claim_c3_auth_immediate (env : Nat → Outcome α) (N st : Nat) (ra : Option Nat)
    (b : α) (tx : String) (hN : 1 ≤ N)
    (h0 : env 0 = .resp st ra b tx) (hst : st = 401 ∨ st = 403) :
    (bithubRequest env N).result = .error (.authError ("HTTP " ++ toString st ++ ": " ++ tx))
    ∧ (bithubRequest env N).attempts = 1
    ∧ (bithubRequest env N).sleeps = [] := by
  obtain ⟨f, rfl⟩ : ∃ f, N = f + 1 := ⟨N - 1, by omega⟩
  unfold bithubRequest
  rw [requestGo_succ_def, h0]
  dsimp only
  rw [if_neg (by omega), if_pos hst]
  exact ⟨rfl, rfl, rfl⟩

/-- C3 witness: a constant-403 network with the generous budget 7 still
yields the auth error after exactly one attempt and no sleep. -/
theorem claim_c3_auth_immediate_witness :
    (bithubRequest (fun _ => Outcome.resp 403 none (0 : Nat) "forbidden") 7).result
        = .error (.authError ("HTTP " ++ toString 403 ++ ": " ++ "forbidden"))
    ∧ (bithubRequest (fun _ => Outcome.resp 403 none (0 : Nat) "forbidden") 7).attempts = 1
    ∧ (bithubRequest (fun _ => Outcome.resp 403 none (0 : Nat) "forbidden") 7).sleeps = [] :=
  claim_c3_auth_immediate (fun _ => Outcome.resp 403 none (0 : Nat) "forbidden") 7 403 none 0
    "forbidden" (by decide) rfl (Or.inr rfl)

/-- C4: with retry budget `N ≥ 1`, exhausting every attempt on transport
failures or 5xx responses always raises `BithubNetworkError` and never
returns a success value; a transport failure on the final attempt carries
the message `Network error after N retries: …`; and a run whose final
attempt was a 5xx falls out of the loop into the fail-safe
`Max retries exceeded` error. -/
theorem claim_c4_exhaustion (env : Nat → Outcome α) (N : Nat) (hN : 1 ≤ N) :
    ((∀ j, j < N → isTransportOr5xx (env j)) →
        ∃ m, (bithubRequest env N).result = .error (.networkError m))
    ∧ (∀ msg, (∀ j, j < N - 1 → isTransportOr5xx (env j)) → env (N - 1) = .exn msg →
        (bithubRequest env N).result
          = .error (.networkError ("Network error after " ++ toString N ++ " retries: " ++ msg)))
    ∧ ((∀ j, j < N → is5xxOutcome (env j)) →
        (bithubRequest env N).result = .error (.networkError "Max retries exceeded")
        ∧ (bithubRequest env N).sleeps = (List.range N).map (fun j => 2 ^ j)) := by
  obtain ⟨f, rfl⟩ : ∃ f, N = f + 1 := ⟨N - 1, by omega⟩
  simp only [Nat.add_sub_cancel]
  unfold bithubRequest
  refine ⟨?_, ?_, ?_⟩
  · intro hfail
    exact requestGo_exhaust_spec env (f + 1) (f + 1) 0 1
      (fun j hj => by simpa using hfail j hj)
  · intro msg hfail hlast
    exact requestGo_finalTransport_spec env (f + 1) msg f 0 1
      (fun j hj => by simpa using hfail j hj) (by simpa using hlast)
  · intro hfail
    have h := requestGo_all5xx_spec env (f + 1) (f + 1) 0 1
      (fun j hj => by simpa using hfail j hj)
    exact ⟨h.1, by rw [h.2.2]; simp⟩

/-- C4 witness: budget 2.  A 500 followed by a transport failure raises
the network error naming 2 retries and the exception text; a persistent
500 run raises the fail-safe error after sleeping 1 then 2 seconds. -/
theorem claim_c4_exhaustion_witness :
    (bithubRequest (fun n =>
        if n = 0 then Outcome.resp 500 none (0 : Nat) "err"
        else Outcome.exn "connection refused") 2).result
      = .error (.networkError ("Network error after " ++ toString 2 ++ " retries: "
          ++ "connection refused"))
    ∧ (bithubRequest (fun _ => Outcome.resp 500 none (0 : Nat) "err") 2).result
        = .error (.networkError "Max retries exceeded")
    ∧ (bithubRequest (fun _ => Outcome.resp 500 none (0 : Nat) "err") 2).sleeps = [1, 2] := by
  have h1 := (claim_c4_exhaustion (fun n =>
      if n = 0 then Outcome.resp 500 none (0 : Nat) "err"
      else Outcome.exn "connection refused") 2 (by decide)).2.1 "connection refused"
    (by decide) (by decide)
  have h2 := (claim_c4_exhaustion (fun _ => Outcome.resp 500 none (0 : Nat) "err") 2
    (by decide)).2.2 (by decide)
  exact ⟨h1, h2.1, by rw [h2.2]; decide⟩

theorem waitGo_succ_def (streams : Nat → List Nat) (posts : Nat → ForumPost)
    (lastPostId timeout pollInterval fuel' p e : Nat) :
    waitGo streams posts lastPostId timeout pollInterval (fuel' + 1) p e =
      if e < timeout then
        match (streams p).getLast? with
        | some lastId =>
          if lastPostId < lastId then
            if (posts lastId).cooked ≠ "" ∨ (posts lastId).raw ≠ "" then ⟨some (posts lastId), e⟩
            else waitGo streams posts lastPostId timeout pollInterval fuel' (p + 1) (e + 2)
          else waitGo streams posts lastPostId timeout pollInterval fuel' (p + 1) (e + pollInterval)
        | none => waitGo streams posts lastPostId timeout pollInterval fuel' (p + 1) (e + pollInterval)
      else ⟨none, e⟩ := rfl

theorem noNewReply_last {lastPostId i : Nat} {stream : List Nat}
    (h : noNewReply lastPostId stream) (hs : stream.getLast? = some i) : i ≤ lastPostId := by
  unfold noNewReply at h
  rw [hs] at h
  exact h

theorem waitGo_noReply_spec (streams : Nat → List Nat) (posts : Nat → ForumPost)
    (lastPostId timeout pollInterval : Nat) (hpi : 1 ≤ pollInterval)
    (hstream : ∀ q, noNewReply lastPostId (streams q)) :
    ∀ fuel p e, timeout ≤ e + fuel →
      (waitGo streams posts lastPostId timeout pollInterval fuel p e).reply = none
      ∧ (e < timeout →
          timeout ≤ (waitGo streams posts lastPostId timeout pollInterval fuel p e).elapsed
          ∧ (waitGo streams posts lastPostId timeout pollInterval fuel p e).elapsed
              < timeout + pollInterval)
      ∧ (timeout ≤ e →
          (waitGo streams posts lastPostId timeout pollInterval fuel p e).elapsed = e) := by
  intro fuel
  induction fuel with
  | zero =>
    intro p e hle
    exact ⟨rfl, fun hlt => absurd hlt (by omega), fun _ => rfl⟩
  | succ f ih =>
    intro p e hle
    by_cases hlt : e < timeout
    · rw [waitGo_succ_def, if_pos hlt]
      cases hs : (streams p).getLast? with
      | none =>
        dsimp only
        have IH := ih (p + 1) (e + pollInterval) (by omega)
        refine ⟨IH.1, fun _ => ?_, fun hge => absurd hlt (by omega)⟩
        rcases Nat.lt_or_ge (e + pollInterval) timeout with h1 | h1
        · exact IH.2.1 h1
        · have he := IH.2.2 h1
          rw [he]
          omega
      | some lastId =>
        dsimp only
        have hle' : lastId ≤ lastPostId := noNewReply_last (hstream p) hs
        rw [if_neg (by omega)]
        have IH := ih (p + 1) (e + pollInterval) (by omega)
        refine ⟨IH.1, fun _ => ?_, fun hge => absurd hlt (by omega)⟩
        rcases Nat.lt_or_ge (e + pollInterval) timeout with h1 | h1
        · exact IH.2.1 h1
        · have he := IH.2.2 h1
          rw [he]
          omega
    · rw [waitGo_succ_def, if_neg hlt]
      exact ⟨rfl, fun h1 => absurd h1 hlt, fun _ => rfl⟩

theorem waitGo_found_spec (streams : Nat → List Nat) (posts : Nat → ForumPost)
    (lastPostId timeout pollInterval : Nat) (hpi : 1 ≤ pollInterval) (i : Nat)
    (hpost : (posts i).cooked ≠ "" ∨ (posts i).raw ≠ "") :
    ∀ k fuel p e, (∀ j, j < k → noNewReply lastPostId (streams (p + j))) →
      (streams (p + k)).getLast? = some i → lastPostId < i →
      e + k * pollInterval < timeout → k < fuel →
      waitGo streams posts lastPostId timeout pollInterval fuel p e
        = ⟨some (posts i), e + k * pollInterval⟩ := by
  intro k
  induction k with
  | zero =>
    intro fuel p e _ hs hgt hlt hfuel
    obtain ⟨f, rfl⟩ : ∃ f, fuel = f + 1 := ⟨fuel - 1, by omega⟩
    rw [Nat.add_zero] at hs
    rw [waitGo_succ_def, if_pos (by omega), hs]
    dsimp only
    rw [if_pos hgt, if_pos hpost]
    simp
  | succ k ih =>
    intro fuel p e hnn hs hgt hlt hfuel
    obtain ⟨f, rfl⟩ : ∃ f, fuel = f + 1 := ⟨fuel - 1, by omega⟩
    have hmul : (k + 1) * pollInterval = k * pollInterval + pollInterval := Nat.succ_mul k pollInterval
    have hpos : 0 < (k + 1) * pollInterval := Nat.mul_pos (Nat.succ_pos k) (by omega)
    have h0 := hnn 0 (Nat.succ_pos k)
    rw [Nat.add_zero] at h0
    have hnn' : ∀ j, j < k → noNewReply lastPostId (streams (p + 1 + j)) := by
      intro j hj
      have h := hnn (j + 1) (by omega)
      rwa [show p + (j + 1) = p + 1 + j by omega] at h
    have hs' : (streams (p + 1 + k)).getLast? = some i := by
      rwa [show p + 1 + k = p + (k + 1) by omega]
    have IH := ih f (p + 1) (e + pollInterval) hnn' hs' hgt (by omega) (by omega)
    rw [waitGo_succ_def, if_pos (by omega)]
    cases hs0 : (streams p).getLast? with
    | none =>
      dsimp only
      rw [IH]
      have : e + pollInterval + k * pollInterval = e + (k + 1) * pollInterval := by omega
      rw [this]
    | some lastId =>
      dsimp only
      have hle' : lastId ≤ lastPostId := noNewReply_last h0 hs0
      rw [if_neg (by omega), IH]
      have : e + pollInterval + k * pollInterval = e + (k + 1) * pollInterval := by omega
      rw [this]

/-- C5: with a positive poll interval, a `wait_for_reply` whose topic
stream never advances past `last_post_id` during the whole window returns
the no-reply sentinel `none` (a normal outcome, not an error) after at
least `timeout` and less than `timeout + poll_interval` seconds of
sleeping; and when some poll `k` inside the window first shows a stream
whose last entry exceeds `last_post_id` and the fetched post has non-empty
`cooked` or `raw` content, that post is returned after `k * poll_interval`
seconds, strictly before the timeout elapses. -/
theorem claim_c5_wait_for_reply (streams : Nat → List Nat) (posts : Nat → ForumPost)
    (lastPostId timeout pollInterval : Nat) (hpi : 1 ≤ pollInterval) :
    ((∀ q, noNewReply lastPostId (streams q)) →
        (waitForReply streams posts lastPostId timeout pollInterval).reply = none
        ∧ timeout ≤ (waitForReply streams posts lastPostId timeout pollInterval).elapsed
        ∧ (waitForReply streams posts lastPostId timeout pollInterval).elapsed
            < timeout + pollInterval)
    ∧ (∀ k i, (∀ j, j < k → noNewReply lastPostId (streams j)) →
        (streams k).getLast? = some i → lastPostId < i →
        ((posts i).cooked ≠ "" ∨ (posts i).raw ≠ "") →
        k * pollInterval < timeout →
        (waitForReply streams posts lastPostId timeout pollInterval).reply = some (posts i)
        ∧ (waitForReply streams posts lastPostId timeout pollInterval).elapsed
            = k * pollInterval
        ∧ (waitForReply streams posts lastPostId timeout pollInterval).elapsed < timeout) := by
  constructor
  · intro hstream
    have h := waitGo_noReply_spec streams posts lastPostId timeout pollInterval hpi hstream
      timeout 0 0 (by omega)
    unfold waitForReply
    rcases Nat.lt_or_ge 0 timeout with h1 | h1
    · exact ⟨h.1, (h.2.1 h1).1, (h.2.1 h1).2⟩
    · have he := h.2.2 (by omega)
      refine ⟨h.1, ?_, ?_⟩
      · rw [he]
        omega
      · rw [he]
        omega
  · intro k i hnn hs hgt hpost hlt
    have hk : k < timeout := by
      have hb : k * 1 ≤ k * pollInterval := Nat.mul_le_mul_left k hpi
      omega
    have h := waitGo_found_spec streams posts lastPostId timeout pollInterval hpi i hpost
      k timeout 0 0 (fun j hj => by simpa using hnn j hj) (by simpa using hs) hgt
      (by simpa using hlt) hk
    unfold waitForReply
    rw [h]
    exact ⟨rfl, by simp, by simpa using hlt⟩

/-- C5 witness: with poll interval 3 and timeout 10, a stream stuck at
post 7 yields `none` after 12 seconds of sleeping; a stream that advances
to post 9 on the second poll yields the post after one 3-second sleep. -/
theorem claim_c5_wait_for_reply_witness :
    ((waitForReply (fun _ => [5, 7]) (fun _ => ⟨"", ""⟩) 7 10 3).reply = none
      ∧ 10 ≤ (waitForReply (fun _ => [5, 7]) (fun _ => ⟨"", ""⟩) 7 10 3).elapsed
      ∧ (waitForReply (fun _ => [5, 7]) (fun _ => ⟨"", ""⟩) 7 10 3).elapsed < 10 + 3)
    ∧ ((waitForReply (fun p => if p = 0 then [7] else [7, 9])
          (fun _ => ⟨"hi", ""⟩) 7 10 3).reply = some ⟨"hi", ""⟩
      ∧ (waitForReply (fun p => if p = 0 then [7] else [7, 9])
          (fun _ => ⟨"hi", ""⟩) 7 10 3).elapsed = 1 * 3
      ∧ (waitForReply (fun p => if p = 0 then [7] else [7, 9])
          (fun _ => ⟨"hi", ""⟩) 7 10 3).elapsed < 10) := by
  constructor
  · exact (claim_c5_wait_for_reply (fun _ => [5, 7]) (fun _ => ⟨"", ""⟩) 7 10 3
      (by decide)).1 (fun q => by decide)
  · exact (claim_c5_wait_for_reply (fun p => if p = 0 then [7] else [7, 9])
      (fun _ => ⟨"hi", ""⟩) 7 10 3 (by decide)).2 1 9 (fun j hj => by
        interval_cases j
        decide) (by decide) (by decide) (by decide) (by decide)

theorem enforce_human_def (jsonOk : String → Bool) (content : String) :
    enforceAudienceFormat jsonOk content "human" = .ok content := by
  unfold enforceAudienceFormat
  rw [if_pos rfl]

theorem enforce_ai_def (jsonOk : String → Bool) (content : String) :
    enforceAudienceFormat jsonOk content "ai" =
      (if jsonOk content then .ok content
       else
         match extractJsonBlock content with
         | some g =>
           if jsonOk g then .ok g
           else .error (.bithubError "Content validation failed: AI audience requires valid JSON.")
         | none => .error (.bithubError "Content validation failed: AI audience requires valid JSON.")) := by
  unfold enforceAudienceFormat
  rw [if_neg (by decide), if_pos rfl]

/-- C6: for an "ai" audience the guard accepts a body exactly when it is
valid JSON directly (returning it unchanged) or the fenced-`json`-block
extraction yields a string that is valid JSON (returning that extracted
string); otherwise it raises the base `BithubError`.  A "human" audience
passes through unchanged. -/
theorem claim_c6_audience_format (jsonOk : String → Bool) (content : String) :
    enforceAudienceFormat jsonOk content "human" = .ok content
    ∧ ((∃ r, enforceAudienceFormat jsonOk content "ai" = .ok r) ↔
        (jsonOk content = true ∨ ∃ g, extractJsonBlock content = some g ∧ jsonOk g = true))
    ∧ (jsonOk content = true → enforceAudienceFormat jsonOk content "ai" = .ok content)
    ∧ (jsonOk content = false →
        ∀ g, extractJsonBlock content = some g → jsonOk g = true →
          enforceAudienceFormat jsonOk content "ai" = .ok g)
    ∧ ((jsonOk content = false ∧ ∀ g, extractJsonBlock content = some g → jsonOk g = false) →
        enforceAudienceFormat jsonOk content "ai"
          = .error (.bithubError "Content validation failed: AI audience requires valid JSON.")) := by
  refine ⟨enforce_human_def jsonOk content, ?_, ?_, ?_, ?_⟩
  · constructor
    · rintro ⟨r, hr⟩
      rw [enforce_ai_def] at hr
      by_cases hc : jsonOk content = true
      · exact Or.inl hc
      · rw [if_neg hc] at hr
        cases hg : extractJsonBlock content with
        | none =>
          rw [hg] at hr
          exact absurd hr (by simp)
        | some g =>
          rw [hg] at hr
          dsimp only at hr
          by_cases hgok : jsonOk g = true
          · exact Or.inr ⟨g, rfl, hgok⟩
          · rw [if_neg hgok] at hr
            exact absurd hr (by simp)
    · rintro (hc | ⟨g, hg, hgok⟩)
      · exact ⟨content, by rw [enforce_ai_def, if_pos hc]⟩
      · by_cases hc : jsonOk content = true
        · exact ⟨content, by rw [enforce_ai_def, if_pos hc]⟩
        · refine ⟨g, ?_⟩
          rw [enforce_ai_def, if_neg hc, hg]
          dsimp only
          rw [if_pos hgok]
  · intro hc
    rw [enforce_ai_def, if_pos hc]
  · intro hc g hg hgok
    rw [enforce_ai_def, if_neg (by simp [hc]), hg]
    dsimp only
    rw [if_pos hgok]
  · rintro ⟨hc, hall⟩
    rw [enforce_ai_def, if_neg (by simp [hc])]
    cases hg : extractJsonBlock content with
    | none => rfl
    | some g =>
      dsimp only
      rw [if_neg (by simp [hall g hg])]

/-- C6 witness: with a validator accepting exactly the string `{1}`, a
body carrying that JSON inside a fenced `json` block reduces to the
extracted block, plain prose is rejected for the "ai" audience, and the
same prose passes unchanged for the "human" audience. -/
theorem claim_c6_audience_format_witness :
    enforceAudienceFormat (fun s => s == "\x7b1\x7d") "text ```json \x7b1\x7d ``` more" "ai"
        = .ok "\x7b1\x7d"
    ∧ enforceAudienceFormat (fun s => s == "\x7b1\x7d") "plain prose" "ai"
        = .error (.bithubError "Content validation failed: AI audience requires valid JSON.")
    ∧ enforceAudienceFormat (fun s => s == "\x7b1\x7d") "plain prose" "human"
        = .ok "plain prose" := by
  refine ⟨?_, ?_, ?_⟩
  · exact (claim_c6_audience_format (fun s => s == "\x7b1\x7d")
      "text ```json \x7b1\x7d ``` more").2.2.2.1 (by decide) "\x7b1\x7d" (by decide) (by decide)
  · refine (claim_c6_audience_format (fun s => s == "\x7b1\x7d") "plain prose").2.2.2.2
      ⟨by decide, fun g hg => ?_⟩
    have hn : extractJsonBlock "plain prose" = none := by decide
    rw [hn] at hg
    exact Option.noConfusion hg
  · exact (claim_c6_audience_format (fun s => s == "\x7b1\x7d") "plain prose").1

/-- C7 (spec-modelled): every write operation runs the pre-send Content
Guard before dispatching.  A body longer than the configured maximum
raises the base error without dispatching, a body with an unresolved
placeholder raises the base error without dispatching, and a body of at
most the maximum length (in particular, exactly the maximum) without
placeholders is dispatched. -/
theorem claim_c7_content_guard {α : Type} (dispatch : String → α) (content : String) :
    (maxContentLength < content.length →
        (guardedWrite dispatch content).result = .error (.bithubError "Content too long")
        ∧ (guardedWrite dispatch content).dispatched = false)
    ∧ (content.length ≤ maxContentLength → hasUnresolvedPlaceholder content = true →
        (guardedWrite dispatch content).result = .error (.bithubError "Unresolved placeholders")
        ∧ (guardedWrite dispatch content).dispatched = false)
    ∧ (content.length ≤ maxContentLength → hasUnresolvedPlaceholder content = false →
        (guardedWrite dispatch content).result = .ok (dispatch content)
        ∧ (guardedWrite dispatch content).dispatched = true) := by
  unfold guardedWrite validateContent
  refine ⟨fun hlen => ?_, fun hlen hph => ?_, fun hlen hph => ?_⟩
  · rw [if_pos hlen]
    exact ⟨rfl, rfl⟩
  · rw [if_neg (by omega), if_pos hph]
    exact ⟨rfl, rfl⟩
  · rw [if_neg (by omega), if_neg (by simp [hph])]
    exact ⟨rfl, rfl⟩

/-- C7 witness: a short body with a double-section-sign placeholder is
rejected without dispatch; a plain short body is dispatched. -/
theorem claim_c7_content_guard_witness :
    ((guardedWrite (fun s => s) "hail §§name").result
        = .error (.bithubError "Unresolved placeholders")
      ∧ (guardedWrite (fun s => s) "hail §§name").dispatched = false)
    ∧ ((guardedWrite (fun s => s) "short post").result = .ok "short post"
      ∧ (guardedWrite (fun s => s) "short post").dispatched = true) := by
  constructor
  · exact (claim_c7_content_guard (fun s => s) "hail §§name").2.1 (by decide) (by decide)
  · exact (claim_c7_content_guard (fun s => s) "short post").2.2 (by decide) (by decide)

/-- C8 (spec-modelled): a body carrying an `@username` mention is rejected
when the destination category id is at or above the core threshold 54,
rejected when the destination topic has fewer than 5 posts, and accepted
below the threshold once the topic has at least 5 posts. -/
theorem claim_c8_mention_guard (content : String) (categoryId postCount : Nat)
    (hm : hasMentionTag content.data = true) :
    (coreCategoryThreshold ≤ categoryId →
        mentionGuard content categoryId postCount
          = .error (.bithubError "Genesis Purity Violation"))
    ∧ (categoryId < coreCategoryThreshold → postCount < minPostsForMention →
        mentionGuard content categoryId postCount
          = .error (.bithubError "Post-Completion Rule"))
    ∧ (categoryId < coreCategoryThreshold → minPostsForMention ≤ postCount →
        mentionGuard content categoryId postCount = .ok ()) := by
  unfold mentionGuard
  rw [if_pos hm]
  refine ⟨fun h1 => by rw [if_pos h1], fun h1 h2 => ?_, fun h1 h2 => ?_⟩
  · rw [if_neg (by omega), if_pos h2]
  · rw [if_neg (by omega), if_neg (by omega)]

/-- C8 witness: `@agent` in category 55 trips the purity rule, `@user` in
category 10 with 2 posts trips the post-completion rule, and the same
mention with 9 posts is accepted. -/
theorem claim_c8_mention_guard_witness :
    mentionGuard "Hello @agent" 55 9 = .error (.bithubError "Genesis Purity Violation")
    ∧ mentionGuard "Check this @user" 10 2 = .error (.bithubError "Post-Completion Rule")
    ∧ mentionGuard "Check this @user" 10 9 = .ok () := by
  refine ⟨?_, ?_, ?_⟩
  · exact (claim_c8_mention_guard "Hello @agent" 55 9 (by decide)).1 (by decide)
  · exact (claim_c8_mention_guard "Check this @user" 10 2 (by decide)).2.1
      (by decide) (by decide)
  · exact (claim_c8_mention_guard "Check this @user" 10 9 (by decide)).2.2
      (by decide) (by decide)

/-- C9 (spec-modelled): the deploy-and-watch-with-burn workflow deletes
the created topic exactly when a synchronous wait was requested with the
burn flag and the wait harvested a reply; an asynchronous call or a timed
out wait never deletes. -/
theorem claim_c9_deploy_burn {α β : Type} (info : α) (watchResult : Option β)
    (sync burn : Bool) :
    (deployCoreBurn info watchResult sync burn).burned = true ↔
      (sync = true ∧ burn = true ∧ ∃ p, watchResult = some p) := by
  unfold deployCoreBurn
  cases sync with
  | false => simp
  | true =>
    cases watchResult with
    | none => simp
    | some p => simp

theorem watchTopicGo_succ_def {β : Type} (hasGetTopic : Bool) (streams : Nat → List Nat)
    (posts : Nat → β) (lastPostId : Nat) (timeout : Int) (fuel' p : Nat) (e : Int) :
    watchTopicGo hasGetTopic streams posts lastPostId timeout (fuel' + 1) p e =
      (if e < timeout then
        if hasGetTopic then
          match (streams p).getLast? with
          | some lastId =>
            if lastPostId < lastId then .found (posts lastId)
            else watchTopicGo hasGetTopic streams posts lastPostId timeout fuel' (p + 1) (e + 5)
          | none => watchTopicGo hasGetTopic streams posts lastPostId timeout fuel' (p + 1) (e + 5)
        else .attrError "get_topic"
      else .noReply) := rfl

/-- C10: `BithubCores.watch_topic` resolves `self.get_topic`, an attribute
neither `BithubCores` nor `BithubComms` defines (the latter defines
`get_topic_posts`), so any call with a positive timeout raises
`AttributeError` on the first poll iteration; a non-positive timeout skips
the loop and returns the no-reply sentinel; and no call ever returns a
found post. -/
theorem claim_c10_watch_topic {β : Type} (streams : Nat → List Nat) (posts : Nat → β)
    (lastPostId : Nat) (timeout : Int) :
    bithubCoresMethods.contains "get_topic" = false
    ∧ bithubCommsMethods.contains "get_topic_posts" = true
    ∧ (0 < timeout →
        watchTopic streams posts lastPostId timeout = WatchOutcome.attrError "get_topic")
    ∧ (timeout ≤ 0 → watchTopic streams posts lastPostId timeout = WatchOutcome.noReply)
    ∧ (∀ p, watchTopic streams posts lastPostId timeout ≠ WatchOutcome.found p) := by
  have hc : bithubCoresMethods.contains "get_topic" = false := by decide
  refine ⟨hc, by decide, ?_, ?_, ?_⟩
  · intro ht
    unfold watchTopic
    rw [hc]
    obtain ⟨f, hf⟩ : ∃ f, timeout.toNat = f + 1 := ⟨timeout.toNat - 1, by omega⟩
    rw [hf, watchTopicGo_succ_def, if_pos ht, if_neg (by simp)]
  · intro ht
    unfold watchTopic
    have h0 : timeout.toNat = 0 := by omega
    rw [h0]
    rfl
  · intro p
    unfold watchTopic
    rw [hc]
    cases hn : timeout.toNat with
    | zero =>
      intro h
      exact WatchOutcome.noConfusion h
    | succ f =>
      rw [watchTopicGo_succ_def]
      by_cases he : (0 : Int) < timeout
      · rw [if_pos he, if_neg (by simp)]
        intro h
        exact WatchOutcome.noConfusion h
      · rw [if_neg he]
        intro h
        exact WatchOutcome.noConfusion h

/-- C10 witness: watching any topic with the default timeout 60 hits the
missing `get_topic` attribute on the first iteration. -/
theorem claim_c10_watch_topic_witness :
    watchTopic (fun _ => ([] : List Nat)) (fun _ => (0 : Nat)) 1 60
      = WatchOutcome.attrError "get_topic" :=
  (claim_c10_watch_topic (fun _ => ([] : List Nat)) (fun _ => (0 : Nat)) 1 60).2.2.1
    (by decide)

/-- Sanity check of the fenced-block extraction on the spec's examples:
a fenced `json` block reduces to its braced group, plain text yields no
match, and whitespace around the group is tolerated. -/
theorem extractJsonBlock_examples :
    extractJsonBlock "see ```json\n\x7b\"a\": 1\x7d\n``` end" = some "\x7b\"a\": 1\x7d"
    ∧ extractJsonBlock "no fence here" = none
    ∧ extractJsonBlock "```json \x7bx\x7d```" = some "\x7bx\x7d" := by
  refine ⟨?_, ?_, ?_⟩ <;> decide

/-- Sanity check of the request executor on concrete runs: an immediate
2xx returns its body, persistent 5xx sleeps the doubling backoffs, a 429
run sleeps the header value, and a final transport failure raises the
network error with the interpolated message. -/
theorem bithubRequest_examples :
    (bithubRequest (fun _ => Outcome.resp 200 none (42 : Nat) "ok") 4).result = .ok 42
    ∧ (bithubRequest (fun _ => Outcome.resp 500 none (0 : Nat) "err") 3).sleeps = [1, 2, 4]
    ∧ (bithubRequest (fun _ => Outcome.resp 429 (some 7) (0 : Nat) "err") 3).sleeps = [7, 7]
    ∧ (bithubRequest (fun _ => (Outcome.exn "boom" : Outcome Nat)) 2).result
        = .error (.networkError "Network error after 2 retries: boom") := by
  refine ⟨?_, ?_, ?_, ?_⟩ <;> decide
